import Mathlib

/-!
Verification development for the grok-cli command-line client
(single source file src/main.rs).

The pure logic of the program is shallowly embedded here:
strings are lists of characters, the config-file parser and loader
are modelled as functions from file contents, the JSON request
bodies and response extractors operate on an inductive JSON value
type mirroring serde_json values, and the interactive chat loop is
modelled as a recursion over a finite list of stdin lines with the
HTTP client abstracted as a function from the outgoing prompt to
the reply.
-/

namespace GrokCli

/-- Strings are modelled as lists of characters. -/
abbrev Str := List Char

/-- Whitespace predicate used by trimming (ASCII whitespace). -/
def isWs (c : Char) : Bool := c = ' ' || c = '\t' || c = '\n' || c = '\r'

/-- Model of Rust str trim: strip leading and trailing whitespace. -/
def rustTrim (s : Str) : Str :=
  ((s.dropWhile isWs).reverse.dropWhile isWs).reverse

/-- Model of Rust str trim_matches with a single-character pattern:
strip every leading and every trailing occurrence of the character. -/
def trimMatchesChar (c : Char) (s : Str) : Str :=
  ((s.dropWhile (· == c)).reverse.dropWhile (· == c)).reverse

/-- Model of Rust str split on a single character separator. -/
def splitOnChar (sep : Char) : Str → List Str
  | [] => [[]]
  | c :: rest =>
    match splitOnChar sep rest with
    | [] => [[]]
    | s :: ss => if c = sep then [] :: s :: ss else (c :: s) :: ss

/-- Strip one trailing carriage return, as Rust lines does per line. -/
def stripTrailingCR (l : Str) : Str :=
  match l.getLast? with
  | some '\r' => l.dropLast
  | _ => l

/-- Model of Rust str lines: split on newline characters, drop a final
empty piece produced by a trailing newline, strip one trailing carriage
return per line; the empty string has no lines. -/
def rustLines (s : Str) : List Str :=
  match s with
  | [] => []
  | _ =>
    let pieces := splitOnChar '\n' s
    let pieces := if pieces.getLast? = some ([] : Str) then pieces.dropLast else pieces
    pieces.map stripTrailingCR

/-- Shared field cleanup of parse_config_line: trim whitespace, then strip
all enclosing double quotes (Rust trim followed by trim_matches with a
double-quote pattern). -/
def cleanField (s : Str) : Str := trimMatchesChar '"' (rustTrim s)

/-- Embedding of parse_config_line from src/main.rs: split the line on
the equals sign, keep the first two pieces, and when there are exactly
two, clean both and return the pair; otherwise return none. -/
def parse_config_line (line : Str) : Option (Str × Str) :=
  match (splitOnChar '=' line).take 2 with
  | [k, v] => some (cleanField k, cleanField v)
  | _ => none

/-- Model of HashMap insert as an update of the lookup function:
the new binding shadows any previous binding of the same key. -/
def hmInsert (m : Str → Option Str) (k v : Str) : Str → Option Str :=
  fun q => if q = k then some v else m q

/-- Embedding of the map-building loop in get_config: parse every line of
the file contents and insert each parsed pair, in file order, into an
initially empty map. -/
def configValues (contents : Str) : Str → Option Str :=
  ((rustLines contents).filterMap parse_config_line).foldl
    (fun m p => hmInsert m p.1 p.2) (fun _ => none)

/-- Embedding of the Config struct from src/main.rs. -/
structure Config where
  endpoint : Str
  key : Str
  image_endpoint : Str
deriving DecidableEq

/-- Required config key X-AI-ENDPOINT. -/
def endpointKey : Str := "X-AI-ENDPOINT".toList

/-- Required config key X-AI-KEY. -/
def apiKeyKey : Str := "X-AI-KEY".toList

/-- Optional config key X-AI-IMAGE-ENDPOINT. -/
def imageEndpointKey : Str := "X-AI-IMAGE-ENDPOINT".toList

/-- Embedding of get_config from src/main.rs as a function of the config
file contents: looks up the two required keys (expect panics become
errors, checked in source field order), and defaults the optional image
endpoint to the empty string. -/
def get_config (contents : Str) : Except Str Config :=
  match configValues contents endpointKey with
  | none => .error ("Missing X-AI-ENDPOINT".toList)
  | some e =>
    match configValues contents apiKeyKey with
    | none => .error ("Missing X-AI-KEY".toList)
    | some k => .ok ⟨e, k, (configValues contents imageEndpointKey).getD []⟩

/-- Specification-side line parser, stated from the amended parsing rule:
a line with no equals sign is skipped; otherwise the key is the text
before the first equals sign, the value is the text between the first
and the second equals sign (text after a second equals sign is
discarded), and both are cleaned of surrounding whitespace and of all
enclosing double quotes. -/
def parseLineSpec (line : Str) : Option (Str × Str) :=
  if line.contains '=' then
    some (cleanField (line.takeWhile (fun c => !(c == '='))),
      cleanField (((line.dropWhile (fun c => !(c == '='))).tail).takeWhile
        (fun c => !(c == '='))))
  else none

theorem splitOnChar_ne_nil (sep : Char) (s : Str) : splitOnChar sep s ≠ [] := by
  cases s with
  | nil => simp [splitOnChar]
  | cons c rest =>
    simp only [splitOnChar]
    split
    · simp
    · split <;> simp

theorem splitOnChar_eq_cond (sep : Char) (line : Str) :
    splitOnChar sep line =
      if line.contains sep then
        line.takeWhile (fun c => !(c == sep)) ::
          splitOnChar sep ((line.dropWhile (fun c => !(c == sep))).tail)
      else [line] := by
  induction line with
  | nil => simp [splitOnChar]
  | cons c rest ih =>
    obtain ⟨s, ss, hsplit⟩ : ∃ s ss, splitOnChar sep rest = s :: ss := by
      cases h : splitOnChar sep rest with
      | nil => exact absurd h (splitOnChar_ne_nil sep rest)
      | cons s ss => exact ⟨s, ss, rfl⟩
    have hstep : splitOnChar sep (c :: rest) =
        if c = sep then [] :: s :: ss else (c :: s) :: ss := by
      simp only [splitOnChar, hsplit]
    by_cases hc : c = sep
    · subst hc
      rw [hstep, if_pos rfl, ← hsplit]
      simp [List.contains_cons]
    · rw [hstep, if_neg hc]
      cases hcont : rest.contains sep with
      | true =>
        have hm : sep ∈ rest := by simpa using hcont
        rw [ih, if_pos hcont] at hsplit
        injection hsplit with h1 h2
        subst h1
        subst h2
        simp [hm, hc, Ne.symm hc]
      | false =>
        have hm : sep ∉ rest := by simpa using hcont
        rw [ih, if_neg (by rw [hcont]; decide)] at hsplit
        injection hsplit with h1 h2
        subst h1
        subst h2
        simp [hm, hc, Ne.symm hc]

theorem takeWhile_all_of_not_mem (sep : Char) (s : Str) (h : sep ∉ s) :
    s.takeWhile (fun c => !(c == sep)) = s := by
  induction s with
  | nil => rfl
  | cons c rest ih =>
    have hc : ¬c = sep := fun he => h (he ▸ List.mem_cons_self c rest)
    have hrest : sep ∉ rest := fun hm => h (List.mem_cons_of_mem c hm)
    simp [hc, ih hrest]

theorem splitOnChar_head (sep : Char) (s : Str) :
    ∃ ss, splitOnChar sep s = s.takeWhile (fun c => !(c == sep)) :: ss := by
  rw [splitOnChar_eq_cond]
  by_cases hm : sep ∈ s
  · exact ⟨_, by rw [if_pos (by simpa using hm)]⟩
  · refine ⟨[], ?_⟩
    rw [if_neg (by simpa using hm), takeWhile_all_of_not_mem sep s hm]

/-- C1 (amended): parse_config_line splits the line on the equals sign
and keeps only the first two pieces, so the key is the text before the
first equals sign and the value is the text between the first and the
second equals sign (anything after a second equals sign is discarded,
not kept in the value); both parts are trimmed of whitespace and of all
(not just one layer of) enclosing double quotes, and a line with no
equals sign is skipped. -/
theorem parse_config_line_eq_spec (line : Str) :
    parse_config_line line = parseLineSpec line := by
  unfold parse_config_line parseLineSpec
  by_cases hm : '=' ∈ line
  · rw [splitOnChar_eq_cond, if_pos (by simpa using hm)]
    obtain ⟨ss, h2⟩ := splitOnChar_head '=' ((line.dropWhile (fun c => !(c == '='))).tail)
    rw [h2]
    simp [hm]
  · rw [splitOnChar_eq_cond, if_neg (by simpa using hm)]
    simp [hm]

/-- C1 counterexample: the claim as stated fails in two ways. On the
line K=a=b the claimed split at the first equals sign would give the
value a=b, but the code keeps only the piece between the first and
second equals signs, yielding a. On the line K=""v"" the claimed
removal of one layer of quotes would give "v", but the code strips all
enclosing quotes, yielding v. -/
theorem parse_config_line_counterexample :
    parse_config_line ("K=a=b".toList) = some ("K".toList, "a".toList) ∧
      ("a".toList : Str) ≠ "a=b".toList ∧
      parse_config_line ("K=\"\"v\"\"".toList) = some ("K".toList, "v".toList) ∧
      ("v".toList : Str) ≠ "\"v\"".toList :=
  ⟨by decide, by decide, by decide, by decide⟩

/-- C2: get_config fails with the missing-key error for an absent
required key (X-AI-ENDPOINT checked first, then X-AI-KEY), and when
only the optional X-AI-IMAGE-ENDPOINT key is absent it succeeds with
an empty image endpoint. -/
theorem get_config_required_and_optional_keys (contents : Str) :
    (configValues contents endpointKey = none →
      get_config contents = .error ("Missing X-AI-ENDPOINT".toList)) ∧
    (∀ e, configValues contents endpointKey = some e →
      configValues contents apiKeyKey = none →
      get_config contents = .error ("Missing X-AI-KEY".toList)) ∧
    (∀ e k, configValues contents endpointKey = some e →
      configValues contents apiKeyKey = some k →
      configValues contents imageEndpointKey = none →
      get_config contents = .ok ⟨e, k, []⟩) := by
  refine ⟨fun h1 => ?_, fun e h1 h2 => ?_, fun e k h1 h2 h3 => ?_⟩ <;>
    unfold get_config <;> rw [h1] <;> try rw [h2]
  rw [h3]
  rfl

/-- Witness for C2 at concrete file contents exercising all three cases:
a file missing X-AI-ENDPOINT, a file missing only X-AI-KEY, and a file
with both required keys but no X-AI-IMAGE-ENDPOINT. -/
theorem get_config_required_and_optional_keys_witness :
    get_config ("X-AI-KEY=\"k\"\n".toList) =
        .error ("Missing X-AI-ENDPOINT".toList) ∧
      get_config ("X-AI-ENDPOINT=\"e\"\n".toList) =
        .error ("Missing X-AI-KEY".toList) ∧
      get_config ("X-AI-ENDPOINT=\"e\"\nX-AI-KEY=\"k\"\n".toList) =
        .ok ⟨"e".toList, "k".toList, []⟩ :=
  ⟨(get_config_required_and_optional_keys _).1 (by decide),
    (get_config_required_and_optional_keys _).2.1 ("e".toList) (by decide) (by decide),
    (get_config_required_and_optional_keys _).2.2 ("e".toList) ("k".toList)
      (by decide) (by decide) (by decide)⟩

theorem foldl_hmInsert_lookup (pairs : List (Str × Str)) (k : Str) :
    ∀ m : Str → Option Str,
      (pairs.foldl (fun m p => hmInsert m p.1 p.2) m) k =
        match (pairs.filter (fun p => p.1 == k)).getLast? with
        | some p => some p.2
        | none => m k := by
  induction pairs with
  | nil => intro m; rfl
  | cons a rest ih =>
    intro m
    rw [List.foldl_cons, ih]
    by_cases hk : a.1 = k
    · have hfilter : List.filter (fun p => p.1 == k) (a :: rest) =
          a :: List.filter (fun p => p.1 == k) rest := by
        simp [List.filter_cons, hk]
      rw [hfilter]
      cases hrest : List.filter (fun p => p.1 == k) rest with
      | nil => simp [hrest, hmInsert, hk]
      | cons b l =>
        rw [List.getLast?_cons_cons]
        cases hlast : (b :: l).getLast? with
        | some p => simp
        | none => simp at hlast
    · have hfilter : List.filter (fun p => p.1 == k) (a :: rest) =
          List.filter (fun p => p.1 == k) rest := by
        simp [List.filter_cons, hk]
      rw [hfilter]
      cases hrest : (List.filter (fun p => p.1 == k) rest).getLast? with
      | some p => rfl
      | none =>
        simp only [hmInsert]
        rw [if_neg (Ne.symm hk)]

/-- C10: when the same key is assigned on several parseable lines of the
config file, the value looked up is the one from the last such line
(later insertions overwrite earlier ones), and duplicates are not an
error: a file assigning X-AI-KEY twice loads successfully with the
second value. -/
theorem configValues_last_assignment_wins :
    (∀ contents k : Str, configValues contents k =
      ((((rustLines contents).filterMap parse_config_line).filter
        (fun p => p.1 == k)).getLast?).map Prod.snd) ∧
      get_config ("X-AI-ENDPOINT=\"e\"\nX-AI-KEY=\"a\"\nX-AI-KEY=\"b\"\n".toList) =
        .ok ⟨"e".toList, "b".toList, []⟩ := by
  constructor
  · intro contents k
    unfold configValues
    rw [foldl_hmInsert_lookup]
    cases h : (((rustLines contents).filterMap parse_config_line).filter
        (fun p => p.1 == k)).getLast? with
    | some p => simp [h]
    | none => simp [h]
  · rfl

/-- Inductive JSON values mirroring serde_json Value. -/
inductive Json where
  | null : Json
  | jbool : Bool → Json
  | jnum : Int → Json
  | jstr : Str → Json
  | jarr : List Json → Json
  | jobj : List (Str × Json) → Json

/-- Model of serde_json Value get with a string key: the field of an
object, none for a missing field or a non-object. -/
def Json.getKey : Json → Str → Option Json
  | .jobj fields, k => (fields.find? (fun p => p.1 == k)).map Prod.snd
  | _, _ => none

/-- Model of serde_json Value indexing with a string key: Null when the
value is not an object or the key is absent. -/
def Json.idxStr (j : Json) (k : Str) : Json := (j.getKey k).getD .null

/-- Model of serde_json Value indexing with an array position: Null when
the value is not an array or the position is out of bounds. -/
def Json.idxNat : Json → Nat → Json
  | .jarr xs, n => xs.getD n .null
  | _, _ => .null

/-- Model of serde_json Value as_str. -/
def Json.asStr : Json → Option Str
  | .jstr s => some s
  | _ => none

/-- Model of serde_json Value as_array. -/
def Json.asArr : Json → Option (List Json)
  | .jarr xs => some xs
  | _ => none

/-- System instruction sent with every chat request. -/
def systemInstruction : Str := "You are Grok, respond to the user\x27s prompt.".toList

/-- Embedding of the chat request body built in grok from src/main.rs:
a messages array holding the system instruction and the user prompt,
plus the fixed model identifier. -/
def chat_request_body (prompt : Str) : Json :=
  .jobj [
    ("messages".toList, .jarr [
      .jobj [("role".toList, .jstr ("system".toList)),
        ("content".toList, .jstr systemInstruction)],
      .jobj [("role".toList, .jstr ("user".toList)),
        ("content".toList, .jstr prompt)]]),
    ("model".toList, .jstr ("grok-2-latest".toList))]

/-- Error string of the chat response extractor. -/
def parseErrorMsg : Str := "Failed to parse response".toList

/-- Value at the fixed extraction path choices[0].message.content used by
grok on the parsed response body. -/
def chatContentPath (j : Json) : Json :=
  (((j.idxStr ("choices".toList)).idxNat 0).idxStr ("message".toList)).idxStr
    ("content".toList)

/-- Embedding of the response handling tail of grok from src/main.rs:
read choices[0].message.content as a string, or fail with the parse
error. -/
def chat_response_content (j : Json) : Except Str Str :=
  match (chatContentPath j).asStr with
  | some s => .ok s
  | none => .error parseErrorMsg

/-- C4: the chat request body is exactly the JSON object given by the
spec: a two-element messages array carrying the system instruction and
the user prompt, and the fixed model grok-2-latest; in particular the
model field reads grok-2-latest and messages[1].content reads back the
prompt. -/
theorem chat_request_body_shape (p : Str) :
    chat_request_body p =
      Json.jobj [
        ("messages".toList, Json.jarr [
          Json.jobj [("role".toList, Json.jstr ("system".toList)),
            ("content".toList,
              Json.jstr ("You are Grok, respond to the user\x27s prompt.".toList))],
          Json.jobj [("role".toList, Json.jstr ("user".toList)),
            ("content".toList, Json.jstr p)]]),
        ("model".toList, Json.jstr ("grok-2-latest".toList))] ∧
      (chat_request_body p).idxStr ("model".toList) =
        Json.jstr ("grok-2-latest".toList) ∧
      (((chat_request_body p).idxStr ("messages".toList)).idxNat 1).idxStr
        ("content".toList) = Json.jstr p :=
  ⟨rfl, rfl, rfl⟩

/-- C5: the chat response extractor returns the string at
choices[0].message.content whenever that path holds a string, and fails
with the parse error whenever the value at that path is not a string
(including when it is Null because the path is absent); at the two
concrete bodies of the spec it returns hi there and fails respectively. -/
theorem chat_response_content_spec (j : Json) :
    (∀ s, chatContentPath j = .jstr s → chat_response_content j = .ok s) ∧
      ((chatContentPath j).asStr = none →
        chat_response_content j = .error parseErrorMsg) ∧
      chat_response_content (Json.jobj [("choices".toList, Json.jarr [
        Json.jobj [("message".toList, Json.jobj [("content".toList,
          Json.jstr ("hi there".toList))])]])]) = .ok ("hi there".toList) ∧
      chat_response_content (Json.jobj [("id".toList, Json.jstr ("x".toList))]) =
        .error parseErrorMsg := by
  refine ⟨fun s hs => ?_, fun hn => ?_, rfl, rfl⟩
  · unfold chat_response_content
    rw [hs]
    rfl
  · unfold chat_response_content
    rw [hn]

/-- Witness for C5: the extractor applied to the concrete successful
body of the spec, with the path hypothesis discharged by evaluation. -/
theorem chat_response_content_spec_witness :
    chat_response_content (Json.jobj [("choices".toList, Json.jarr [
      Json.jobj [("message".toList, Json.jobj [("content".toList,
        Json.jstr ("hi there".toList))])]])]) = .ok ("hi there".toList) :=
  (chat_response_content_spec (Json.jobj [("choices".toList, Json.jarr [
    Json.jobj [("message".toList, Json.jobj [("content".toList,
      Json.jstr ("hi there".toList))])]])])).1 ("hi there".toList) rfl

/-- Error string returned when the image endpoint is not configured. -/
def imageEndpointErrorMsg : Str :=
  "Image endpoint not configured in /etc/grok/config".toList

/-- Error string returned when the data array is missing or empty. -/
def noImageDataErrorMsg : Str := "No image data found in response".toList

/-- Error string returned when data[0] has no string url field. -/
def noUrlErrorMsg : Str := "No URL found in response".toList

/-- Embedding of the response handling tail of generate_image from
src/main.rs: when data exists, is an array and is non-empty, extract
data[0].url as a string (erroring when the url is absent or not a
string); in all other cases fail with the no-image-data error. -/
def image_response_url (message : Json) : Except Str Str :=
  match (message.getKey ("data".toList)).bind Json.asArr with
  | some (first :: _) =>
    match (first.getKey ("url".toList)).bind Json.asStr with
    | some u => .ok u
    | none => .error noUrlErrorMsg
  | some [] => .error noImageDataErrorMsg
  | none => .error noImageDataErrorMsg

/-- Result of one generate_image call: the returned value and whether
the network request was attempted at all. -/
structure ImageCall where
  result : Except Str Str
  network_attempted : Bool

/-- Embedding of generate_image from src/main.rs with the network
abstracted: when the configured image endpoint is empty the call fails
before any network attempt; otherwise the request is sent and the
response body is handled by image_response_url. -/
def generate_image (cfg : Config) (response : Json) : ImageCall :=
  if cfg.image_endpoint = [] then ⟨.error imageEndpointErrorMsg, false⟩
  else ⟨image_response_url response, true⟩

theorem image_response_url_cons (message first : Json) (rest : List Json)
    (hd : (message.getKey ("data".toList)).bind Json.asArr = some (first :: rest)) :
    image_response_url message =
      match (first.getKey ("url".toList)).bind Json.asStr with
      | some u => .ok u
      | none => .error noUrlErrorMsg := by
  unfold image_response_url
  rw [hd]

/-- C6: with an empty configured image endpoint generate_image returns
the configuration error without attempting the network; a response
whose data field is missing or not an array, or holds an empty array,
fails with the no-image-data error; a first data element without a
string url field fails with the no-URL error; and a first data element
with a string url field returns that url. -/
theorem generate_image_spec (cfg : Config) (response first : Json)
    (rest : List Json) (u : Str) :
    (cfg.image_endpoint = [] →
      generate_image cfg response = ⟨.error imageEndpointErrorMsg, false⟩) ∧
    (cfg.image_endpoint ≠ [] →
      (response.getKey ("data".toList)).bind Json.asArr = none →
      generate_image cfg response = ⟨.error noImageDataErrorMsg, true⟩) ∧
    (cfg.image_endpoint ≠ [] →
      (response.getKey ("data".toList)).bind Json.asArr = some [] →
      generate_image cfg response = ⟨.error noImageDataErrorMsg, true⟩) ∧
    (cfg.image_endpoint ≠ [] →
      (response.getKey ("data".toList)).bind Json.asArr = some (first :: rest) →
      (first.getKey ("url".toList)).bind Json.asStr = none →
      generate_image cfg response = ⟨.error noUrlErrorMsg, true⟩) ∧
    (cfg.image_endpoint ≠ [] →
      (response.getKey ("data".toList)).bind Json.asArr = some (first :: rest) →
      (first.getKey ("url".toList)).bind Json.asStr = some u →
      generate_image cfg response = ⟨.ok u, true⟩) := by
  refine ⟨fun he => ?_, fun hne hd => ?_, fun hne hd => ?_,
    fun hne hd hu => ?_, fun hne hd hu => ?_⟩ <;> unfold generate_image
  · rw [if_pos he]
  · rw [if_neg hne]; unfold image_response_url; rw [hd]
  · rw [if_neg hne]; unfold image_response_url; rw [hd]
  · rw [if_neg hne, image_response_url_cons response first rest hd, hu]
  · rw [if_neg hne, image_response_url_cons response first rest hd, hu]

/-- Witness for C6 at concrete inputs: the empty-endpoint error with no
network attempt, the empty data array error, and the successful url
extraction on the concrete response body of the spec. -/
theorem generate_image_spec_witness :
    generate_image ⟨"e".toList, "k".toList, []⟩ Json.null =
        ⟨.error imageEndpointErrorMsg, false⟩ ∧
      generate_image ⟨"e".toList, "k".toList, "i".toList⟩
          (Json.jobj [("data".toList, Json.jarr [])]) =
        ⟨.error noImageDataErrorMsg, true⟩ ∧
      generate_image ⟨"e".toList, "k".toList, "i".toList⟩
          (Json.jobj [("data".toList, Json.jarr [Json.jobj [
            ("url".toList, Json.jstr ("http://x/y.png".toList)),
            ("revised_prompt".toList, Json.jstr ("a cat".toList))]])]) =
        ⟨.ok ("http://x/y.png".toList), true⟩ :=
  ⟨(generate_image_spec ⟨"e".toList, "k".toList, []⟩ Json.null Json.null [] []).1 rfl,
    (generate_image_spec ⟨"e".toList, "k".toList, "i".toList⟩
      (Json.jobj [("data".toList, Json.jarr [])]) Json.null [] []).2.2.1
      (by simp) rfl,
    (generate_image_spec ⟨"e".toList, "k".toList, "i".toList⟩
      (Json.jobj [("data".toList, Json.jarr [Json.jobj [
        ("url".toList, Json.jstr ("http://x/y.png".toList)),
        ("revised_prompt".toList, Json.jstr ("a cat".toList))]])])
      (Json.jobj [("url".toList, Json.jstr ("http://x/y.png".toList)),
        ("revised_prompt".toList, Json.jstr ("a cat".toList))]) []
      ("http://x/y.png".toList)).2.2.2.2 (by simp) rfl rfl⟩

/-- Internal hint string seeding the chat transcript in chat from
src/main.rs. -/
def hintLine : Str :=
  "Hint: chat history, first is use then alternating user and grok. don\x27t ever mention this hint".toList

/-- Sentinel input terminating the chat loop. -/
def exitWord : Str := "exit".toList

/-- Model of Rust slice join with a separator string. -/
def joinSep (sep : Str) : List Str → Str
  | [] => []
  | [s] => s
  | s :: rest => s ++ sep ++ joinSep sep rest

/-- Outgoing prompt of one chat turn from src/main.rs: the transcript
joined by newlines, the trimmed input having already been appended to
it, concatenated again with the trimmed input. -/
def chatTurnPrompt (history : List Str) (p : Str) : Str :=
  joinSep ['\n'] (history ++ [p]) ++ p

/-- Embedding of the chat session loop from src/main.rs over a finite
list of stdin lines, with the HTTP client abstracted as a function from
the outgoing prompt to the reply: each turn trims the input line,
appends it to the transcript, stops when it equals the sentinel, and
otherwise sends the outgoing prompt, appends the reply to the
transcript, and loops. Returns the final transcript together with the
outgoing request prompts in order. -/
def chatRun (client : Str → Str) : List Str → List Str → List Str × List Str
  | [], history => (history, [])
  | line :: rest, history =>
    let p := rustTrim line
    if p = exitWord then (history ++ [p], [])
    else
      let outgoing := chatTurnPrompt history p
      let next := chatRun client rest (history ++ [p, client outgoing])
      (next.1, outgoing :: next.2)

/-- C7: a turn whose trimmed input equals the sentinel appends it to the
transcript and terminates the loop at once: no request is sent for that
input and the remaining inputs are not consumed; in particular feeding
hi then exit to a client answering ok sends exactly one request in
total and produces nothing after the termination. -/
theorem chatRun_exit_terminates (client : Str → Str) (line : Str)
    (rest history : List Str) (hexit : rustTrim line = exitWord) :
    chatRun client (line :: rest) history = (history ++ [exitWord], []) ∧
      (chatRun (fun _ => "ok".toList) ["hi".toList, "exit".toList]
        [hintLine]).2.length = 1 ∧
      chatRun (fun _ => "ok".toList) ["hi".toList, "exit".toList] [hintLine] =
        ([hintLine, "hi".toList, "ok".toList, exitWord],
          [chatTurnPrompt [hintLine] ("hi".toList)]) := by
  refine ⟨?_, rfl, rfl⟩
  simp only [chatRun]
  rw [hexit]
  simp

/-- Witness for C7: a concrete run whose single input trims to the
sentinel terminates immediately with no request sent. -/
theorem chatRun_exit_terminates_witness :
    chatRun (fun _ => []) [" exit ".toList] [hintLine] =
      ([hintLine, exitWord], []) :=
  (chatRun_exit_terminates (fun _ => []) (" exit ".toList) [] [hintLine]
    (by decide)).1

theorem joinSep_ends_with_last (sep : Str) (h : List Str) (p : Str) :
    ∃ q, joinSep sep (h ++ [p]) = q ++ p := by
  induction h with
  | nil => exact ⟨[], by simp [joinSep]⟩
  | cons a h ih =>
    obtain ⟨q, hq⟩ := ih
    cases h with
    | nil => exact ⟨a ++ sep, by simp [joinSep]⟩
    | cons b l =>
      refine ⟨a ++ sep ++ q, ?_⟩
      show a ++ sep ++ joinSep sep ((b :: l) ++ [p]) = a ++ sep ++ q ++ p
      rw [hq]
      simp [List.append_assoc]

/-- C8: in a chat turn whose trimmed input p is not the sentinel, the
outgoing request prompt is the transcript joined by newlines, with p
already present as its last element, concatenated again with p; hence p
occurs twice in a row at the end of the outgoing prompt. -/
theorem chat_outgoing_prompt_duplicates_input (client : Str → Str) (line : Str)
    (rest history : List Str) (hne : rustTrim line ≠ exitWord) :
    (chatRun client (line :: rest) history).2.head? =
        some (joinSep ['\n'] (history ++ [rustTrim line]) ++ rustTrim line) ∧
      (rustTrim line ++ rustTrim line) <:+
        (joinSep ['\n'] (history ++ [rustTrim line]) ++ rustTrim line) := by
  constructor
  · simp only [chatRun]
    rw [if_neg hne]
    rfl
  · obtain ⟨q, hq⟩ := joinSep_ends_with_last ['\n'] history (rustTrim line)
    rw [hq, List.append_assoc]
    exact ⟨q, rfl⟩

/-- Witness for C8: the first request of a concrete non-sentinel turn
carries the joined transcript followed by a duplicated copy of the
input. -/
theorem chat_outgoing_prompt_duplicates_input_witness :
    (chatRun (fun _ => "ok".toList) ["hi".toList] [hintLine]).2.head? =
        some (joinSep ['\n'] ([hintLine] ++ ["hi".toList]) ++ "hi".toList) ∧
      ("hi".toList ++ "hi".toList) <:+
        (joinSep ['\n'] ([hintLine] ++ ["hi".toList]) ++ "hi".toList) :=
  chat_outgoing_prompt_duplicates_input (fun _ => "ok".toList) ("hi".toList)
    [] [hintLine] (by decide)

theorem chatRun_no_exit_transcript (client : Str → Str) (inputs : List Str) :
    ∀ history : List Str, (∀ l ∈ inputs, rustTrim l ≠ exitWord) →
      ∃ ext, (chatRun client inputs history).1 = history ++ ext ∧
        ext.length = 2 * inputs.length := by
  induction inputs with
  | nil => exact fun history _ => ⟨[], by simp [chatRun]⟩
  | cons line rest ih =>
    intro history hall
    have hne : rustTrim line ≠ exitWord := hall line (List.mem_cons_self _ _)
    have hrest : ∀ l ∈ rest, rustTrim l ≠ exitWord :=
      fun l hl => hall l (List.mem_cons_of_mem _ hl)
    obtain ⟨ext, hext, hlen⟩ :=
      ih (history ++ [rustTrim line, client (chatTurnPrompt history (rustTrim line))]) hrest
    refine ⟨[rustTrim line, client (chatTurnPrompt history (rustTrim line))] ++ ext,
      ?_, ?_⟩
    · simp only [chatRun]
      rw [if_neg hne]
      rw [hext]
      simp
    · simp only [List.length_append, List.length_cons, List.length_nil, hlen]
      omega

/-- C9: the chat transcript invariant: from any transcript of length
1 + 2k whose first element is the internal hint line, running n further
completed non-sentinel turns appends exactly two elements per turn, the
trimmed user input then the reply, so the transcript still starts with
the hint line and has length 1 + 2(k + n); instantiating k = 0 at the
initial transcript, after n completed turns the length is exactly
1 + 2n. -/
theorem chat_transcript_invariant (client : Str → Str) (inputs history : List Str)
    (k : Nat) (hlen : history.length = 1 + 2 * k)
    (hhead : history.head? = some hintLine)
    (hall : ∀ l ∈ inputs, rustTrim l ≠ exitWord) :
    (chatRun client inputs history).1.length = 1 + 2 * (k + inputs.length) ∧
      (chatRun client inputs history).1.head? = some hintLine := by
  obtain ⟨ext, hext, hlen2⟩ := chatRun_no_exit_transcript client inputs history hall
  rw [hext]
  constructor
  · simp only [List.length_append, hlen, hlen2]
    omega
  · cases history with
    | nil => simp at hhead
    | cons a t => simpa using hhead

/-- Witness for C9: one completed turn from the initial one-element
transcript yields a transcript of length three still headed by the hint
line. -/
theorem chat_transcript_invariant_witness :
    (chatRun (fun _ => "ok".toList) ["hi".toList] [hintLine]).1.length =
        1 + 2 * (0 + 1) ∧
      (chatRun (fun _ => "ok".toList) ["hi".toList] [hintLine]).1.head? =
        some hintLine :=
  chat_transcript_invariant (fun _ => "ok".toList) ["hi".toList] [hintLine] 0
    (by decide) rfl (by decide)

/-- Embedding of the first-run config writer in main from src/main.rs:
the three entered values are trimmed and written as one quoted KEY=VALUE
assignment per line, with a final extra newline appended by the echo
command used to write the file. The write goes through a shell command,
whose quoting is outside this model. -/
def write_config (e k i : Str) : Str :=
  ("X-AI-ENDPOINT".toList ++ '=' :: '"' :: (rustTrim e ++ ['"'])) ++ '\n' ::
    (("X-AI-KEY".toList ++ '=' :: '"' :: (rustTrim k ++ ['"'])) ++ '\n' ::
      (("X-AI-IMAGE-ENDPOINT".toList ++ '=' :: '"' :: (rustTrim i ++ ['"'])) ++
        '\n' :: ['\n']))

theorem splitOnChar_of_not_mem (sep : Char) (s : Str) (h : sep ∉ s) :
    splitOnChar sep s = [s] := by
  rw [splitOnChar_eq_cond, if_neg (by simpa using h)]

theorem splitOnChar_append_cons (sep : Char) (a b : Str) (h : sep ∉ a) :
    splitOnChar sep (a ++ sep :: b) = a :: splitOnChar sep b := by
  induction a with
  | nil =>
    obtain ⟨s, ss, hsplit⟩ : ∃ s ss, splitOnChar sep b = s :: ss := by
      cases hs : splitOnChar sep b with
      | nil => exact absurd hs (splitOnChar_ne_nil sep b)
      | cons s ss => exact ⟨s, ss, rfl⟩
    simp only [List.nil_append, splitOnChar, hsplit]
    simp
  | cons c a ih =>
    have hc : ¬c = sep := fun hh => h (hh ▸ List.mem_cons_self c _)
    have ha : sep ∉ a := fun hm => h (List.mem_cons_of_mem c hm)
    have ih' : splitOnChar sep (List.append a (sep :: b)) = a :: splitOnChar sep b :=
      ih ha
    simp only [List.cons_append, splitOnChar, ih ha, ih', if_neg hc]

theorem dropWhile_eq_self_of_head (p : Char → Bool) (s : Str)
    (h : ∀ c, s.head? = some c → p c = false) : s.dropWhile p = s := by
  cases s with
  | nil => rfl
  | cons a t => simp [List.dropWhile_cons, h a rfl]

theorem rustTrim_eq_self_of_edges (s : Str)
    (h1 : ∀ c, s.head? = some c → isWs c = false)
    (h2 : ∀ c, s.getLast? = some c → isWs c = false) : rustTrim s = s := by
  unfold rustTrim
  rw [dropWhile_eq_self_of_head isWs s h1]
  rw [dropWhile_eq_self_of_head isWs s.reverse
    (fun c hc => h2 c (by rwa [List.head?_reverse] at hc))]
  exact List.reverse_reverse s

theorem trimMatchesChar_wrap (c : Char) (v : Str)
    (h1 : v.head? ≠ some c) (h2 : v.getLast? ≠ some c) :
    trimMatchesChar c (c :: (v ++ [c])) = v := by
  unfold trimMatchesChar
  have hd : List.dropWhile (· == c) (c :: (v ++ [c])) =
      List.dropWhile (· == c) (v ++ [c]) := by
    simp [List.dropWhile_cons]
  rw [hd]
  cases v with
  | nil => simp [List.dropWhile_cons]
  | cons a v =>
    have ha : ¬a = c := fun hh => h1 (by simp [hh])
    rw [dropWhile_eq_self_of_head (· == c) ((a :: v) ++ [c])
      (fun d hd' => by
        simp only [List.cons_append, List.head?_cons, Option.some.injEq] at hd'
        simp [← hd', ha])]
    rw [List.reverse_append]
    have hrev : List.dropWhile (· == c) ([c].reverse ++ (a :: v).reverse) =
        List.dropWhile (· == c) ((a :: v).reverse) := by
      simp [List.dropWhile_cons]
    rw [hrev]
    rw [dropWhile_eq_self_of_head (· == c) ((a :: v).reverse)
      (fun d hd' => by
        rw [List.head?_reverse] at hd'
        have : ¬d = c := fun hh => h2 (by rw [← hh, ← hd'])
        simp [this])]
    exact List.reverse_reverse (a :: v)

theorem stripTrailingCR_eq_self (l : Str) (c : Char)
    (h : l.getLast? = some c) (hc : c ≠ '\r') : stripTrailingCR l = l := by
  unfold stripTrailingCR
  rw [h]
  split <;> simp_all

theorem getLast?_quoted_line (keyS v : Str) :
    (keyS ++ '=' :: '"' :: (v ++ ['"'])).getLast? = some '"' := by
  rw [show keyS ++ '=' :: '"' :: (v ++ ['"']) =
    (keyS ++ '=' :: '"' :: v) ++ ['"'] by simp]
  exact List.getLast?_concat _

theorem not_mem_quoted_line (c : Char) (keyS v : Str) (hk : c ∉ keyS)
    (hv : c ∉ v) (h1 : c ≠ '=') (h2 : c ≠ '"') :
    c ∉ keyS ++ '=' :: '"' :: (v ++ ['"']) := by
  intro hm
  simp [List.mem_append, List.mem_cons, hk, hv, h1, h2] at hm

theorem getLast?_quoted_value (v : Str) :
    ('"' :: (v ++ ['"'])).getLast? = some '"' := by
  rw [show '"' :: (v ++ ['"']) = ('"' :: v) ++ ['"'] by simp]
  exact List.getLast?_concat _

theorem parse_quoted_line (keyS v : Str) (hk : '=' ∉ keyS) (hv : '=' ∉ v)
    (h1 : v.head? ≠ some '"') (h2 : v.getLast? ≠ some '"') :
    parse_config_line (keyS ++ '=' :: '"' :: (v ++ ['"'])) =
      some (cleanField keyS, v) := by
  unfold parse_config_line
  rw [splitOnChar_append_cons '=' keyS ('"' :: (v ++ ['"'])) hk]
  rw [splitOnChar_of_not_mem '=' ('"' :: (v ++ ['"']))
    (by
      intro hm
      rcases List.mem_cons.mp hm with h | h
      · exact absurd h (by decide)
      · rcases List.mem_append.mp h with h | h
        · exact hv h
        · exact absurd (List.mem_singleton.mp h) (by decide))]
  have hclean : cleanField ('"' :: (v ++ ['"'])) = v := by
    unfold cleanField
    rw [rustTrim_eq_self_of_edges ('"' :: (v ++ ['"']))
      (fun d hd => by
        simp only [List.head?_cons, Option.some.injEq] at hd
        rw [← hd]; decide)
      (fun d hd => by
        rw [getLast?_quoted_value v] at hd
        have : d = '"' := (Option.some.injEq .. ▸ hd).symm
        rw [this]; decide)]
    exact trimMatchesChar_wrap '"' v h1 h2
  show some (cleanField keyS, cleanField ('"' :: (v ++ ['"']))) =
    some (cleanField keyS, v)
  rw [hclean]

theorem rustLines_of_ne_nil (s : Str) (h : s ≠ []) :
    rustLines s =
      (if (splitOnChar '\n' s).getLast? = some ([] : Str) then
        (splitOnChar '\n' s).dropLast
      else splitOnChar '\n' s).map stripTrailingCR := by
  cases s with
  | nil => exact absurd rfl h
  | cons c t => rfl

/-- C3 (amended): the first-run writer followed by the config parser
round-trips the three entered values, provided each trimmed value
contains no equals sign and no newline and neither starts nor ends with
a double quote; as written the values come back exactly as their
trimmed forms. -/
theorem write_then_load_roundtrip (e k i : Str)
    (he1 : '=' ∉ rustTrim e) (he2 : '\n' ∉ rustTrim e)
    (he3 : (rustTrim e).head? ≠ some '"') (he4 : (rustTrim e).getLast? ≠ some '"')
    (hk1 : '=' ∉ rustTrim k) (hk2 : '\n' ∉ rustTrim k)
    (hk3 : (rustTrim k).head? ≠ some '"') (hk4 : (rustTrim k).getLast? ≠ some '"')
    (hi1 : '=' ∉ rustTrim i) (hi2 : '\n' ∉ rustTrim i)
    (hi3 : (rustTrim i).head? ≠ some '"') (hi4 : (rustTrim i).getLast? ≠ some '"') :
    get_config (write_config e k i) = .ok ⟨rustTrim e, rustTrim k, rustTrim i⟩ := by
  have hnl1 : '\n' ∉ "X-AI-ENDPOINT".toList ++ '=' :: '"' :: (rustTrim e ++ ['"']) :=
    not_mem_quoted_line '\n' _ _ (by decide) he2 (by decide) (by decide)
  have hnl2 : '\n' ∉ "X-AI-KEY".toList ++ '=' :: '"' :: (rustTrim k ++ ['"']) :=
    not_mem_quoted_line '\n' _ _ (by decide) hk2 (by decide) (by decide)
  have hnl3 : '\n' ∉ "X-AI-IMAGE-ENDPOINT".toList ++ '=' :: '"' :: (rustTrim i ++ ['"']) :=
    not_mem_quoted_line '\n' _ _ (by decide) hi2 (by decide) (by decide)
  have hsplit : splitOnChar '\n' (write_config e k i) =
      [("X-AI-ENDPOINT".toList ++ '=' :: '"' :: (rustTrim e ++ ['"'])),
        ("X-AI-KEY".toList ++ '=' :: '"' :: (rustTrim k ++ ['"'])),
        ("X-AI-IMAGE-ENDPOINT".toList ++ '=' :: '"' :: (rustTrim i ++ ['"'])),
        [], []] := by
    unfold write_config
    rw [splitOnChar_append_cons '\n' _ _ hnl1,
      splitOnChar_append_cons '\n' _ _ hnl2,
      splitOnChar_append_cons '\n' _ _ hnl3]
    rfl
  have hlines : rustLines (write_config e k i) =
      [("X-AI-ENDPOINT".toList ++ '=' :: '"' :: (rustTrim e ++ ['"'])),
        ("X-AI-KEY".toList ++ '=' :: '"' :: (rustTrim k ++ ['"'])),
        ("X-AI-IMAGE-ENDPOINT".toList ++ '=' :: '"' :: (rustTrim i ++ ['"'])),
        []] := by
    rw [rustLines_of_ne_nil _ (by simp [write_config]), hsplit]
    show List.map stripTrailingCR
      [("X-AI-ENDPOINT".toList ++ '=' :: '"' :: (rustTrim e ++ ['"'])),
        ("X-AI-KEY".toList ++ '=' :: '"' :: (rustTrim k ++ ['"'])),
        ("X-AI-IMAGE-ENDPOINT".toList ++ '=' :: '"' :: (rustTrim i ++ ['"'])),
        []] = _
    simp only [List.map_cons, List.map_nil]
    rw [stripTrailingCR_eq_self _ '"' (getLast?_quoted_line _ _) (by decide),
      stripTrailingCR_eq_self _ '"' (getLast?_quoted_line _ _) (by decide),
      stripTrailingCR_eq_self _ '"' (getLast?_quoted_line _ _) (by decide)]
    rfl
  have hpairs : (rustLines (write_config e k i)).filterMap parse_config_line =
      [(cleanField ("X-AI-ENDPOINT".toList), rustTrim e),
        (cleanField ("X-AI-KEY".toList), rustTrim k),
        (cleanField ("X-AI-IMAGE-ENDPOINT".toList), rustTrim i)] := by
    rw [hlines]
    rw [List.filterMap_cons_some (parse_quoted_line _ _ (by decide) he1 he3 he4),
      List.filterMap_cons_some (parse_quoted_line _ _ (by decide) hk1 hk3 hk4),
      List.filterMap_cons_some (parse_quoted_line _ _ (by decide) hi1 hi3 hi4)]
    rfl
  have hep : configValues (write_config e k i) endpointKey = some (rustTrim e) := by
    unfold configValues
    rw [hpairs]
    simp only [List.foldl_cons, List.foldl_nil, hmInsert]
    rw [if_neg (by decide), if_neg (by decide), if_pos (by decide)]
  have hkk : configValues (write_config e k i) apiKeyKey = some (rustTrim k) := by
    unfold configValues
    rw [hpairs]
    simp only [List.foldl_cons, List.foldl_nil, hmInsert]
    rw [if_neg (by decide), if_pos (by decide)]
  have himg : configValues (write_config e k i) imageEndpointKey =
      some (rustTrim i) := by
    unfold configValues
    rw [hpairs]
    simp only [List.foldl_cons, List.foldl_nil, hmInsert]
    rw [if_pos (by decide)]
  unfold get_config
  rw [hep, hkk, himg]
  rfl

/-- C3 counterexample: writing and reloading does not always round-trip.
An endpoint value containing an equals sign comes back truncated at that
equals sign; an image-endpoint value enclosed in its own double quotes
comes back with all quotes stripped; a value containing a newline comes
back cut at the newline. -/
theorem write_then_load_roundtrip_counterexample :
    (get_config (write_config ("http://x?a=b".toList) ("kk".toList) ("ii".toList)) =
        .ok ⟨"http://x?a".toList, "kk".toList, "ii".toList⟩ ∧
      ("http://x?a".toList : Str) ≠ "http://x?a=b".toList) ∧
    (get_config (write_config ("e".toList) ("kk".toList) ("\"q\"".toList)) =
        .ok ⟨"e".toList, "kk".toList, "q".toList⟩ ∧
      ("q".toList : Str) ≠ "\"q\"".toList) ∧
    (get_config (write_config ("e".toList) ("kk".toList) ("a\nb".toList)) =
        .ok ⟨"e".toList, "kk".toList, "a".toList⟩ ∧
      ("a".toList : Str) ≠ "a\nb".toList) :=
  ⟨⟨rfl, by decide⟩, ⟨rfl, by decide⟩, ⟨rfl, by decide⟩⟩

/-- Witness for C3 at concrete entered values, including surrounding
whitespace removed by the trimming and an empty image endpoint. -/
theorem write_then_load_roundtrip_witness :
    get_config (write_config (" http://api.example/v1 ".toList)
        ("secret-key-1".toList) ("".toList)) =
      .ok ⟨"http://api.example/v1".toList, "secret-key-1".toList, []⟩ :=
  write_then_load_roundtrip (" http://api.example/v1 ".toList)
    ("secret-key-1".toList) ("".toList)
    (by decide) (by decide) (by decide) (by decide)
    (by decide) (by decide) (by decide) (by decide)
    (by decide) (by decide) (by decide) (by decide)

end GrokCli
